import Mathlib

/-!
Verification of the session-aware conversational book-recommendation core
(`services/conversation_context.py`, `services/agent_service.py`,
`services/book_conversation_service.py`) against its natural-language
specification.  Python functions are shallowly embedded as Lean functions:
dict-shaped sessions become structures, Python floats become rationals,
`str.lower`/`str.strip`/substring tests become explicit string functions,
the Redis key-value store becomes an explicit store value whose operations
return `Except Unit` (raising = `.error ()`), and external library calls
(difflib's `SequenceMatcher.ratio`, the `re` regex engine) are abstracted
as function parameters / pre-computed match lists.
-/

namespace BookAgent

/-! ## String helpers mirroring Python primitives -/

/-- Python `sub in hay` (substring containment) on char lists. -/
def containsSub (sub : List Char) : List Char → Bool
  | [] => sub.isEmpty
  | c :: t => sub.isPrefixOf (c :: t) || containsSub sub t

/-- Python `sub in hay` for strings. -/
def strContains (hay sub : String) : Bool :=
  containsSub sub.toList hay.toList

/-- Python `s.lower()` (core `String.toLower` does not reduce in the
kernel, so we map `Char.toLower` over the character list directly). -/
def pyLower (s : String) : String :=
  ⟨s.data.map Char.toLower⟩

/-- Python `s.strip()`: drop leading and trailing whitespace. -/
def pyTrim (s : String) : String :=
  ⟨((s.data.dropWhile Char.isWhitespace).reverse.dropWhile
      Char.isWhitespace).reverse⟩

/-- The whitespace-word scanner behind Python `s.split()`:
`acc` holds the current word reversed. -/
def wordsAux : List Char → List Char → List String
  | [], acc => if acc.isEmpty then [] else [⟨acc.reverse⟩]
  | c :: t, acc =>
    if c.isWhitespace then
      if acc.isEmpty then wordsAux t [] else ⟨acc.reverse⟩ :: wordsAux t []
    else wordsAux t (c :: acc)

/-- Python `s.split()`: split on whitespace runs, no empty pieces. -/
def pySplitWs (s : String) : List String :=
  wordsAux s.data []

/-! ## Data model (`conversation_context.py`)

A book record as handled by the context store and the agent service:
only the fields the verified operations inspect (`book_id`, `title`). -/

structure Book where
  bookId : Option Int
  title : String
  deriving DecidableEq, Repr

structure Message where
  role : String
  content : String
  intent : Option String
  books : Option (List Book)
  deriving DecidableEq, Repr

/-- A session record, as stored under `conversation:{session_id}`.
Timestamps are modelled as naturals; the JSON (de)serialization helpers
are identities in the model since the store keeps structured values. -/
structure Session where
  created : Nat
  last_activity : Nat
  conversation_history : List Message
  last_recommendations : Option (List Book)
  discussed_books : Finset Int
  deriving DecidableEq

/-- The fresh session dict built by `get_or_create_session` when no
record exists. -/
def emptySession (now : Nat) : Session :=
  { created := now
  , last_activity := now
  , conversation_history := []
  , last_recommendations := none
  , discussed_books := ∅ }

/-- The backing Redis key-value store: a map from keys to stored
sessions, plus a reachability flag.  Every operation on an unreachable
store raises (returns `.error ()`), exactly as the `redis` client does. -/
structure KVStore where
  reachable : Bool
  data : String → Option Session

def session_key (session_id : String) : String :=
  "conversation:" ++ session_id

/-- `self.redis.get(key)`: raises when the store is unreachable. -/
def redisGet (st : KVStore) (key : String) : Except Unit (Option Session) :=
  if st.reachable then .ok (st.data key) else .error ()

/-- `self.redis.setex(key, ttl, value)`: raises when unreachable. -/
def redisSetex (st : KVStore) (key : String) (value : Session) :
    Except Unit KVStore :=
  if st.reachable then
    .ok { st with data := fun k => if k = key then some value else st.data k }
  else .error ()

/-- `ConversationContextManager._save_session`. -/
def save_session (st : KVStore) (session_id : String) (session : Session) :
    Except Unit KVStore :=
  redisSetex st (session_key session_id) session

/-- `ConversationContextManager.get_or_create_session`: read the stored
session (or build a fresh one), refresh `last_activity`, re-persist.
There is no exception handler in the source: any store error propagates. -/
def get_or_create_session (now : Nat) (st : KVStore) (session_id : String) :
    Except Unit (Session × KVStore) :=
  match redisGet st (session_key session_id) with
  | .error e => .error e
  | .ok raw =>
    let session :=
      match raw with
      | some s => s
      | none => emptySession now
    let session := { session with last_activity := now }
    match save_session st session_id session with
    | .error e => .error e
    | .ok st' => .ok (session, st')

/-! ## `ConversationContextManager.add_message`

The session-level transformation performed by `add_message` between the
`get_or_create_session` load and the `_save_session` store.  (The store
round-trip returns the saved session unchanged apart from
`last_activity`, so sequences of `add_message` calls compose these
transformations.) -/

structure AddArgs where
  role : String
  content : String
  books : Option (List Book)
  intent : Option String
  deriving DecidableEq, Repr

/-- Python truthiness of the optional `books` argument
(`if books:`): `None` and `[]` are falsy. -/
def booksTruthy : Option (List Book) → Bool
  | none => false
  | some l => !l.isEmpty

/-- The message dict appended by `add_message` (the `books` key is only
set when `books` is truthy). -/
def mkMessage (a : AddArgs) : Message :=
  { role := a.role
  , content := a.content
  , intent := a.intent
  , books := if booksTruthy a.books then a.books else none }

/-- Python `lst[-k:]` (note `lst[-0:]` is the whole list). -/
def pySliceLast (k : Nat) (l : List α) : List α :=
  if k = 0 then l else l.drop (l.length - k)

/-- The list of books carried by a truthy `books` argument. -/
def booksOf : Option (List Book) → List Book
  | none => []
  | some l => l

/-- `add_message` on a loaded session: append the message, truncate the
history to the last `max_context_messages` entries when it overflows,
overwrite `last_recommendations` and union the (non-`None`) `book_id`s
into `discussed_books` when `books` is truthy. -/
def add_message (maxCtx : Nat) (s : Session) (a : AddArgs) : Session :=
  let message := mkMessage a
  let s := if booksTruthy a.books
    then { s with last_recommendations := a.books } else s
  let hist := s.conversation_history ++ [message]
  let hist := if maxCtx < hist.length then pySliceLast maxCtx hist else hist
  let s := { s with conversation_history := hist }
  if booksTruthy a.books then
    let discussed := (booksOf a.books).foldl
      (fun acc b =>
        match b.bookId with
        | some i => insert i acc
        | none => acc)
      s.discussed_books
    { s with discussed_books := discussed }
  else s

/-- The suffix of the last `k` elements (`drop (length - k)`), used to
state the truncation claims. -/
def lastN (k : Nat) (l : List α) : List α :=
  l.drop (l.length - k)

/-! ## `agent_service.py`: intent and context analysis -/

/-- `any(keyword in message_lower for keyword in kws)`. -/
def hasKw (ml : String) (kws : List String) : Bool :=
  kws.any (fun k => strContains ml k)

def career_keywords : List String :=
  ["promovido", "promoção", "carreira", "liderança", "líder", "gestor", "gerente",
   "promoted", "promotion", "career", "leadership", "leader", "manager"]

def genre_keywords : List String :=
  ["fantasia", "fantasy", "ficção científica", "sci-fi", "science fiction",
   "romance", "terror", "horror", "mistério", "mystery", "suspense",
   "história", "history", "biografia", "biography", "autoajuda", "self-help",
   "negócios", "business", "ciência", "science", "tecnologia", "technology"]

def book_request_words : List String :=
  ["recomende", "recomendação", "sugestão", "livro", "livros",
   "recommend", "recommendation", "suggestion", "book", "books"]

def author_keywords : List String :=
  ["autor", "autora", "writer", "author", "escritor", "escritora",
   "livros de", "obras de", "books by"]

def known_authors : List String :=
  ["j.k. rowling", "jk rowling", "stephen king", "george orwell",
   "agatha christie", "j.r.r. tolkien", "dan brown", "paulo coelho",
   "suzanne collins", "veronica roth", "rick riordan"]

def closing_keywords : List String :=
  ["obrigado", "obrigada", "valeu", "thank you", "thanks", "bye", "tchau",
   "até logo", "goodbye", "adeus"]

/-- `BookAgentService._analyze_intent`: the prioritized keyword cascade. -/
def analyze_intent (message : String) : String :=
  let ml := pyTrim (pyLower message)
  if hasKw ml career_keywords then "career_growth"
  else
    let has_genre := hasKw ml genre_keywords
    let has_book_request := hasKw ml book_request_words
    if has_genre && has_book_request then "general"
    else if hasKw ml author_keywords || hasKw ml known_authors then "author"
    else if has_book_request then "general"
    else if hasKw ml closing_keywords && !has_book_request then "closing"
    else "social"

/-- The `ContextAnalysis` dict produced by `_analyze_context`. -/
structure ContextAnalysis where
  is_continuation : Bool
  topic_shift : Bool
  asking_about_previous : Bool
  similarity_score : ℚ
  previous_topic : Option String
  current_topic : Option String
  deriving DecidableEq, Repr

def asking_keywords_pt : List String :=
  ["algum dos", "alguma das", "os livros", "as recomendações",
   "já recomendados", "que você recomendou", "anteriores",
   "desse", "dessa", "aquele", "esse"]

def asking_keywords_en : List String :=
  ["any of the", "the books", "the recommendations",
   "already recommended", "that you recommended", "previous",
   "that one", "this one"]

/-- `asking_keywords.get(language, asking_keywords['pt'])`. -/
def askingKeywordsFor (language : String) : List String :=
  if language = "en" then asking_keywords_en else asking_keywords_pt

/-- The fixed, ordered topic → keyword table of `_detect_topic`. -/
def topic_keywords : List (String × List String) :=
  [("programming",
    ["python", "java", "javascript", "c++", "programming", "coding",
     "software", "algorithm", "data structure", "web development",
     "programação", "programacao", "código", "codigo", "algoritmo"]),
   ("data_science",
    ["data science", "machine learning", "artificial intelligence",
     "ai", "data analysis", "statistics", "big data",
     "ciência de dados", "ciencia de dados", "aprendizado de máquina",
     "inteligência artificial", "inteligencia artificial"]),
   ("physics",
    ["physics", "física", "fisica", "mechanics", "quantum", "relativity",
     "thermodynamics", "optics", "mecânica", "mecanica", "óptica", "optica"]),
   ("mathematics",
    ["mathematics", "math", "calculus", "algebra", "geometry",
     "statistics", "probability", "matemática", "matematica",
     "cálculo", "calculo", "álgebra", "algebra"]),
   ("leadership",
    ["leadership", "management", "team", "lead", "manager",
     "liderança", "lideranca", "gestão", "gestao", "chefia", "equipe"]),
   ("business",
    ["business", "entrepreneurship", "marketing", "finance", "economics",
     "negócios", "negocios", "empreendedorismo", "marketing", "finanças"]),
   ("fiction",
    ["fiction", "novel", "story", "fantasy", "science fiction", "romance",
     "ficção", "ficcao", "romance", "fantasia", "ficção científica"]),
   ("self_help",
    ["self help", "self-help", "personal development", "motivation",
     "autoajuda", "auto-ajuda", "desenvolvimento pessoal", "motivação"])]

/-- `BookAgentService._detect_topic`: first matching topic in table
order, else `"general"`.  (The `language` parameter is unused, as in the
source.) -/
def detect_topic (text : String) (_language : String) : String :=
  let tl := pyLower text
  let detected := topic_keywords.filterMap
    (fun p => if hasKw tl p.2 then some p.1 else none)
  detected.headD "general"

/-- The reversed-history scan for the most recent `role == "user"`
message (its `content`, defaulting to `""`). -/
def lastUserMessage (history : List Message) : Option String :=
  (history.reverse.find? (fun m => m.role = "user")).map (fun m => m.content)

/-- `BookAgentService._analyze_context`.  The difflib
`SequenceMatcher(None, a, b).ratio()` call is abstracted as the `ratio`
parameter. -/
def analyze_context (ratio : String → String → ℚ) (message : String)
    (history : List Message) (_last_recommendations : Option (List Book))
    (language : String) : ContextAnalysis :=
  let base : ContextAnalysis :=
    { is_continuation := false
    , topic_shift := false
    , asking_about_previous := false
    , similarity_score := 0
    , previous_topic := none
    , current_topic := none }
  if history.isEmpty then base
  else
    let ml := pyLower message
    let aap := hasKw ml (askingKeywordsFor language)
    let current := detect_topic message language
    match lastUserMessage history with
    | none =>
      let a := { base with asking_about_previous := aap, current_topic := some current }
      let cont := !a.topic_shift && !a.asking_about_previous && decide ((3 : ℚ)/10 < a.similarity_score)
      { a with is_continuation := cont }
    | some lum =>
      if lum = "" then
        -- `if last_user_message:` is false for the empty string
        let a := { base with asking_about_previous := aap, current_topic := some current }
        let cont := !a.topic_shift && !a.asking_about_previous && decide ((3 : ℚ)/10 < a.similarity_score)
        { a with is_continuation := cont }
      else
        let previous := detect_topic lum language
        -- `if analysis['current_topic'] and analysis['previous_topic']:`
        let bothTruthy := current ≠ "" && previous ≠ ""
        let ts := if bothTruthy then decide (current ≠ previous) else false
        let sim := if bothTruthy then ratio ml (pyLower lum) else 0
        let a : ContextAnalysis :=
          { is_continuation := false
          , topic_shift := ts
          , asking_about_previous := aap
          , similarity_score := sim
          , previous_topic := some previous
          , current_topic := some current }
        let cont := !a.topic_shift && !a.asking_about_previous && decide ((3 : ℚ)/10 < a.similarity_score)
        { a with is_continuation := cont }

/-! ## `agent_service.py`: retrieval strategy and deduplication -/

def specific_aspects : List String :=
  ["melhor", "mais", "recomenda", "indica", "sugere"]

/-- Python truthiness of `last_recommendations`
(`None` or `[]` are falsy). -/
def recsTruthy : Option (List Book) → Bool
  | none => false
  | some l => !l.isEmpty

/-- `BookAgentService._determine_search_strategy`. -/
def determine_search_strategy (message intent : String)
    (context_analysis : ContextAnalysis)
    (last_recommendations : Option (List Book)) : String :=
  let ml := pyLower message
  if context_analysis.asking_about_previous then "use_previous_only"
  else if context_analysis.topic_shift then "new_search"
  else if ["author", "genre", "popular"].contains intent then "new_search"
  else if recsTruthy last_recommendations && context_analysis.is_continuation then
    if specific_aspects.any (fun k => strContains ml k) then "context_boosted"
    else "similar_to_previous"
  else "new_search"

/-- The identity a book is deduplicated under: its `book_id` when that
is truthy (present and nonzero), else its raw `title`.  The Python
`seen_ids` set holds both kinds of value. -/
inductive DedupKey where
  | ident (i : Int)
  | title (t : String)
  deriving DecidableEq, Repr

/-- Python truthiness of the retrieved `book_id`
(`None` and `0` are falsy). -/
def bookIdTruthy : Option Int → Bool
  | none => false
  | some i => i ≠ 0

def dedupKey (b : Book) : DedupKey :=
  if bookIdTruthy b.bookId then .ident (b.bookId.getD 0) else .title b.title

/-- The loop of `_remove_duplicate_books`, carrying the `seen_ids` set. -/
def removeDupAux : List Book → List DedupKey → List Book
  | [], _ => []
  | b :: rest, seen =>
    if dedupKey b ∈ seen then removeDupAux rest seen
    else b :: removeDupAux rest (dedupKey b :: seen)

/-- `BookAgentService._remove_duplicate_books`. -/
def remove_duplicate_books (books : List Book) : List Book :=
  removeDupAux books []

/-! ## `book_conversation_service.py`: fuzzy title matching -/

/-- A catalog row, reduced to the field the scoring inspects. -/
structure CatBook where
  title : String
  deriving DecidableEq, Repr

/-- `BookConversationService._calculate_title_similarity`.  The difflib
`SequenceMatcher(None, query, title).ratio()` call is abstracted as the
`ratio` parameter; Python floats become rationals. -/
def calculate_title_similarity (ratio : String → String → ℚ)
    (query title : String) (query_words : List String) : ℚ :=
  if query = pyLower title then 1
  else if strContains title query || strContains query title then 9/10
  else
    let title_words_list := pySplitWs title
    let common_count :=
      ((title_words_list.dedup).filter (fun w => query_words.contains w)).length
    if common_count ≠ 0 then
      let word_score : ℚ :=
        (common_count : ℚ) / (max query_words.length title_words_list.length : ℚ)
      let order_bonus : ℚ :=
        (1/10) * (((query_words.zip title_words_list).filter
          (fun p => p.1 = p.2)).length : ℚ)
      min (8/10) (word_score + order_bonus)
    else if query.length < 20 && title.length < 20 then
      ratio query title * (7/10)
    else 0

/-- The catalog scan of `find_book_by_title_fuzzy`: track the best
`(score, book)` pair (`if score > best_score:` updates it), skip rows
with an empty (lowered) title, stop early once a score exceeds `0.9`
(returning the just-updated pair, as the `break` does). -/
def findFuzzyAux (ratio : String → String → ℚ) (query : String)
    (query_words : List String) :
    List CatBook → ℚ → Option CatBook → ℚ × Option CatBook
  | [], best_score, best_match => (best_score, best_match)
  | b :: rest, best_score, best_match =>
    if pyLower b.title = "" then
      findFuzzyAux ratio query query_words rest best_score best_match
    else if (9 : ℚ)/10 <
        calculate_title_similarity ratio query (pyLower b.title) query_words then
      (if best_score <
          calculate_title_similarity ratio query (pyLower b.title) query_words then
        (calculate_title_similarity ratio query (pyLower b.title) query_words,
         some b)
      else (best_score, best_match))
    else if best_score <
        calculate_title_similarity ratio query (pyLower b.title) query_words then
      findFuzzyAux ratio query query_words rest
        (calculate_title_similarity ratio query (pyLower b.title) query_words)
        (some b)
    else
      findFuzzyAux ratio query query_words rest best_score best_match

/-- `BookConversationService.find_book_by_title_fuzzy`, restricted to
the full-catalog scan (the recent-recommendations shortcut is skipped
when no session is supplied, as in the source with `session_id=None`).
Returns the best-scoring row when its score exceeds the `0.3`
threshold. -/
def find_book_by_title_fuzzy (ratio : String → String → ℚ)
    (catalog : List CatBook) (title_query : String) : Option CatBook :=
  let query := pyLower title_query
  let query_words := pySplitWs query
  let res := findFuzzyAux ratio query query_words catalog 0 none
  match res.2 with
  | some b => if (3 : ℚ)/10 < res.1 then some b else none
  | none => none

/-- The per-row score used by the catalog scan. -/
def rowScore (ratio : String → String → ℚ) (title_query : String)
    (b : CatBook) : ℚ :=
  calculate_title_similarity ratio (pyLower title_query) (pyLower b.title)
    (pySplitWs (pyLower title_query))

/-! ## `book_conversation_service.py`: book-reference detection

`detect_book_reference` drives the `re` library; the regex engine is
abstracted as a pre-computed view of all the match lists the function
consumes, in source order. -/

/-- One match of a `book_reference_patterns` regex: a plain string for a
group-less pattern, or the list of its capture groups. -/
inductive RefMatch where
  | plain (s : String)
  | groups (gs : List String)

/-- The regex-engine results `detect_book_reference` branches on. -/
structure RegexView where
  /-- `self._is_always_general_request(message, language)`. -/
  isAlwaysGeneral : Bool
  /-- `re.findall` results over the four `id_patterns`, flattened in
  pattern order. -/
  idMatches : List String
  /-- `re.findall(r'"([^"]+)"', message)`. -/
  doubleQuoted : List String
  /-- `re.findall` for single-quoted substrings. -/
  singleQuoted : List String
  /-- `re.findall` results over `book_reference_patterns`, flattened in
  pattern order. -/
  refMatches : List RefMatch
  /-- `self._is_stop_phrase(title, language)`. -/
  isStopPhrase : String → Bool

/-- `match.isdigit()`: nonempty and all digits. -/
def pyIsDigit (s : String) : Bool :=
  s ≠ "" && s.toList.all Char.isDigit

/-- The ID-pattern loop: first match that is a nonempty digit string,
converted with `int(...)` (a failing conversion is skipped, as the
`except: pass` does). -/
def firstIdMatch (ms : List String) : Option Nat :=
  ms.findSome? (fun m => if pyIsDigit m then m.toNat? else none)

/-- A quoted candidate is accepted when its stripped form is longer
than 3 characters and is not a stop phrase. -/
def quotedAccept (stop : String → Bool) (t : String) : Option String :=
  let title := pyTrim t
  if 3 < title.length && !stop title then some title else none

/-- The inner loop over a tuple match's capture groups. -/
def tryGroups (stop : String → Bool) : List String → Option String
  | [] => none
  | g :: rest =>
    if g ≠ "" && 3 < (pyTrim g).length && !stop (pyTrim g) then some (pyTrim g)
    else tryGroups stop rest

/-- The loop over `book_reference_patterns` matches. -/
def tryRefMatches (stop : String → Bool) : List RefMatch → Option String
  | [] => none
  | .groups gs :: rest =>
    match tryGroups stop gs with
    | some t => some t
    | none => tryRefMatches stop rest
  | .plain m :: rest =>
    if m ≠ "" && 3 < (pyTrim m).length && !stop (pyTrim m) then some (pyTrim m)
    else tryRefMatches stop rest

/-- The title-extraction stages of `detect_book_reference` (reached
when no numeric ID matched): first double-quoted candidate, else first
single-quoted candidate, else the `book_reference_patterns` loop. -/
def titleStage (rv : RegexView) : Option String :=
  let afterDouble :=
    match rv.doubleQuoted with
    | t :: _ => quotedAccept rv.isStopPhrase t
    | [] => none
  match afterDouble with
  | some title => some title
  | none =>
    let afterSingle :=
      match rv.singleQuoted with
      | t :: _ => quotedAccept rv.isStopPhrase t
      | [] => none
    match afterSingle with
    | some title => some title
    | none => tryRefMatches rv.isStopPhrase rv.refMatches

/-- `BookConversationService.detect_book_reference`, over the regex
view: general-request short-circuit, then numeric IDs, then the title
stages. -/
def detect_book_reference (rv : RegexView) : Option String × Option Nat :=
  if rv.isAlwaysGeneral then (none, none)
  else
    match firstIdMatch rv.idMatches with
    | some book_id => (none, some book_id)
    | none =>
      match titleStage rv with
      | some title => (some title, none)
      | none => (none, none)

/-! # Claims -/

/-! ## C1: error propagation of `get_or_create_session` -/

/-- An unreachable backing store. -/
def unreachableStore : KVStore :=
  { reachable := false, data := fun _ => none }

/-- C1 counterexample: on an unreachable backing store,
`get_or_create_session` raises (`Except.error`) instead of returning an
ephemeral empty session — the claimed fallback does not exist in the
code. -/
theorem C1_counterexample :
    get_or_create_session 0 unreachableStore "default" = Except.error () := rfl

/-- C1 (amended): `get_or_create_session` propagates backing-store
errors to its caller; only on a reachable store does it return (and
re-persist) the stored session — or a fresh empty one — with
`last_activity` refreshed. -/
theorem C1_get_or_create_session_propagates (now : Nat) (st : KVStore)
    (sid : String) :
    (st.reachable = false →
      get_or_create_session now st sid = Except.error ()) ∧
    (st.reachable = true →
      get_or_create_session now st sid =
        Except.ok
          ({ (st.data (session_key sid)).getD (emptySession now) with
              last_activity := now },
           { st with data := fun k =>
               if k = session_key sid then
                 some { (st.data (session_key sid)).getD (emptySession now) with
                         last_activity := now }
               else st.data k })) := by
  constructor
  · intro h
    simp [get_or_create_session, redisGet, h]
  · intro h
    cases hd : st.data (session_key sid) with
    | none =>
      simp [get_or_create_session, redisGet, save_session, redisSetex, h, hd,
        Option.getD]
    | some s0 =>
      simp [get_or_create_session, redisGet, save_session, redisSetex, h, hd,
        Option.getD]

/-- C1 witness: the amended theorem applied to a concrete unreachable
store. -/
theorem C1_witness :
    get_or_create_session 3 unreachableStore "s1" = Except.error () :=
  (C1_get_or_create_session_propagates 3 unreachableStore "s1").1 rfl

/-! ## C2: `asking_about_previous` forces `use_previous_only` -/

/-- C2: whenever the context analysis has `asking_about_previous = true`,
`_determine_search_strategy` returns `"use_previous_only"` regardless of
the message, intent, remaining analysis fields and previous
recommendations. -/
theorem C2_asking_forces_use_previous (message intent : String)
    (ca : ContextAnalysis) (recs : Option (List Book))
    (h : ca.asking_about_previous = true) :
    determine_search_strategy message intent ca recs = "use_previous_only" := by
  simp [determine_search_strategy, h]

/-- C2 witness at a concrete context analysis. -/
theorem C2_witness :
    determine_search_strategy "oi" "social"
      { is_continuation := false, topic_shift := true
      , asking_about_previous := true, similarity_score := 0
      , previous_topic := none, current_topic := none } none
      = "use_previous_only" :=
  C2_asking_forces_use_previous _ _ _ _ rfl

/-! ## C5: the specific-intent rule of the strategy selector -/

/-- A context analysis describing a same-topic continuation. -/
def caContinuation : ContextAnalysis :=
  { is_continuation := true, topic_shift := false
  , asking_about_previous := false, similarity_score := 1
  , previous_topic := none, current_topic := none }

/-- C5 counterexample: the source checks `intent in ['author', 'genre',
'popular']`, not `'popularity'`; with intent `"popularity"`, no topic
shift, no reference to previous books, and an ongoing continuation, the
strategy is `"similar_to_previous"`, not `"new_search"`. -/
theorem C5_counterexample :
    caContinuation.asking_about_previous = false ∧
    caContinuation.topic_shift = false ∧
    determine_search_strategy "oi" "popularity" caContinuation
      (some [{ bookId := some 1, title := "Dune" }]) = "similar_to_previous" ∧
    ("similar_to_previous" : String) ≠ "new_search" := by
  refine ⟨rfl, rfl, rfl, by decide⟩

/-- C5 (amended): with `asking_about_previous` and `topic_shift` both
false, an intent among `author`, `genre`, `popular` (the literal the
source compares against) yields `"new_search"`. -/
theorem C5_specific_intent_new_search (message : String)
    (ca : ContextAnalysis) (recs : Option (List Book)) (intent : String)
    (h1 : ca.asking_about_previous = false) (h2 : ca.topic_shift = false)
    (h3 : ["author", "genre", "popular"].contains intent = true) :
    determine_search_strategy message intent ca recs = "new_search" := by
  have h4 : intent = "author" ∨ intent = "genre" ∨ intent = "popular" := by
    simpa using h3
  rcases h4 with rfl | rfl | rfl <;> simp [determine_search_strategy, h1, h2]

/-- C5 witness: the amended rule at intent `"genre"`. -/
theorem C5_witness :
    determine_search_strategy "oi" "genre" caContinuation none = "new_search" :=
  C5_specific_intent_new_search "oi" caContinuation none "genre" rfl rfl
    (by decide)

/-! ## C10: `detect_book_reference` never reports both a title and an id -/

/-- C10: for every outcome of the regex scans, the pair returned by
`detect_book_reference` has at most one non-`None` component, and a
message matching a general-request pattern yields `(None, None)`. -/
theorem C10_at_most_one_component (rv : RegexView) :
    ((detect_book_reference rv).1 = none ∨
     (detect_book_reference rv).2 = none) ∧
    (rv.isAlwaysGeneral = true → detect_book_reference rv = (none, none)) := by
  constructor
  · unfold detect_book_reference
    split
    · exact Or.inl rfl
    · split
      · exact Or.inl rfl
      · cases titleStage rv with
        | none => exact Or.inl rfl
        | some t => exact Or.inr rfl
  · intro h
    simp [detect_book_reference, h]

/-- A regex view for a message hitting the general-request patterns. -/
def rvGeneral : RegexView :=
  { isAlwaysGeneral := true, idMatches := ["1234"], doubleQuoted := []
  , singleQuoted := [], refMatches := [], isStopPhrase := fun _ => false }

/-- C10 witness: the general-request short-circuit at a concrete view. -/
theorem C10_witness : detect_book_reference rvGeneral = (none, none) :=
  (C10_at_most_one_component rvGeneral).2 rfl

/-! ## C6: deduplication of book results -/

/-- The normalized (lowercased) title comparison the claim describes;
the source deduplicates on the raw title instead. -/
def specNormalizeTitle (t : String) : String := pyLower t

/-- C6 counterexample: titles are deduplicated *verbatim*, not
normalized ("Dune" and "dune" both survive), and a `book_id` of `0` is
falsy in Python, so two distinct-title entries sharing `book_id = 0`
both survive — the output can contain two entries with the same
`book_id`. -/
theorem C6_counterexample :
    remove_duplicate_books
      [{ bookId := some 0, title := "X" }, { bookId := some 0, title := "Y" },
       { bookId := none, title := "Dune" }, { bookId := none, title := "dune" }]
      = [{ bookId := some 0, title := "X" }, { bookId := some 0, title := "Y" },
         { bookId := none, title := "Dune" }, { bookId := none, title := "dune" }] ∧
    specNormalizeTitle "Dune" = specNormalizeTitle "dune" ∧
    ("Dune" : String) ≠ "dune" := by
  refine ⟨by decide, by decide, by decide⟩

lemma removeDupAux_sublist (l : List Book) (seen : List DedupKey) :
    (removeDupAux l seen).Sublist l := by
  induction l generalizing seen with
  | nil => simp [removeDupAux]
  | cons b rest ih =>
    unfold removeDupAux
    split
    · exact (ih seen).cons b
    · exact (ih (dedupKey b :: seen)).cons₂ b

lemma removeDupAux_keys_fresh (l : List Book) (seen : List DedupKey) :
    (∀ b' ∈ removeDupAux l seen, dedupKey b' ∉ seen) ∧
    ((removeDupAux l seen).map dedupKey).Nodup := by
  induction l generalizing seen with
  | nil => simp [removeDupAux]
  | cons b rest ih =>
    unfold removeDupAux
    split
    · exact ih seen
    · rename_i hnot
      obtain ⟨hfresh, hnodup⟩ := ih (dedupKey b :: seen)
      constructor
      · intro b' hb'
        rcases List.mem_cons.1 hb' with rfl | hb2
        · exact hnot
        · exact fun hs => hfresh _ hb2 (List.mem_cons_of_mem _ hs)
      · refine List.nodup_cons.2 ⟨?_, hnodup⟩
        intro hmem
        obtain ⟨b', hb', he⟩ := List.mem_map.1 hmem
        exact hfresh b' hb' (he ▸ List.mem_cons_self _ _)

lemma removeDupAux_find (l : List Book) (seen : List DedupKey)
    (k : DedupKey) (hk : k ∉ seen) :
    (removeDupAux l seen).find? (fun b => dedupKey b = k) =
      l.find? (fun b => dedupKey b = k) := by
  induction l generalizing seen with
  | nil => simp [removeDupAux]
  | cons b rest ih =>
    unfold removeDupAux
    split
    · rename_i hseen
      have hne : dedupKey b ≠ k := fun he => hk (he ▸ hseen)
      rw [ih seen hk, List.find?]
      simp [hne]
    · rw [List.find?, List.find?]
      by_cases he : dedupKey b = k
      · simp [he]
      · have hd : (decide (dedupKey b = k)) = false := by simp [he]
        simp only [hd]
        exact ih (dedupKey b :: seen) (by simp [List.mem_cons, hk, Ne.symm he])

/-- C6 (amended): `_remove_duplicate_books` keeps the first occurrence
of each deduplication identity — the `book_id` when it is truthy
(present and nonzero), else the *verbatim* title — dropping later
duplicates: the output is an order-preserving sublist of the input, its
deduplication identities are pairwise distinct (so no two kept entries
share the same truthy `book_id`), and for each identity the kept entry
is exactly the first matching entry of the input. -/
theorem C6_remove_duplicates_first_wins (books : List Book) :
    (remove_duplicate_books books).Sublist books ∧
    ((remove_duplicate_books books).map dedupKey).Nodup ∧
    (∀ k : DedupKey,
      (remove_duplicate_books books).find? (fun b => dedupKey b = k) =
        books.find? (fun b => dedupKey b = k)) :=
  ⟨removeDupAux_sublist books [],
   (removeDupAux_keys_fresh books []).2,
   fun k => removeDupAux_find books [] k (List.not_mem_nil k)⟩

/-! ## C3: history truncation invariant of `add_message` -/

lemma add_message_history (maxCtx : Nat) (s : Session) (a : AddArgs) :
    (add_message maxCtx s a).conversation_history =
      (if maxCtx < (s.conversation_history ++ [mkMessage a]).length then
        pySliceLast maxCtx (s.conversation_history ++ [mkMessage a])
      else s.conversation_history ++ [mkMessage a]) := by
  by_cases hb : booksTruthy a.books <;> simp [add_message, hb]

lemma lastN_length_le (k : Nat) (l : List α) : (lastN k l).length ≤ k := by
  simp only [lastN, List.length_drop]
  omega

lemma trunc_lastN_step (maxCtx : Nat) (hpos : 0 < maxCtx)
    (msgs : List Message) (m : Message) :
    (if maxCtx < (lastN maxCtx msgs ++ [m]).length then
      pySliceLast maxCtx (lastN maxCtx msgs ++ [m])
    else lastN maxCtx msgs ++ [m]) = lastN maxCtx (msgs ++ [m]) := by
  have hlen : (lastN maxCtx msgs).length = msgs.length - (msgs.length - maxCtx) := by
    simp [lastN]
  by_cases hL : msgs.length < maxCtx
  · have h0 : msgs.length - maxCtx = 0 := by omega
    have h1 : (msgs ++ [m]).length - maxCtx = 0 := by
      simp only [List.length_append, List.length_cons, List.length_nil]
      omega
    simp only [lastN, h0, h1, List.drop_zero]
    rw [if_neg (by
      simp only [List.length_append, List.length_cons, List.length_nil]
      omega)]
  · have hle : maxCtx ≤ msgs.length := by omega
    have hlen2 : (lastN maxCtx msgs).length = maxCtx := by omega
    have hcond : maxCtx < (lastN maxCtx msgs ++ [m]).length := by
      simp only [List.length_append, hlen2, List.length_cons, List.length_nil]
      omega
    have hk0 : maxCtx ≠ 0 := by omega
    rw [if_pos hcond, pySliceLast, if_neg hk0]
    have hdroplen : (lastN maxCtx msgs ++ [m]).length - maxCtx = 1 := by
      simp only [List.length_append, hlen2, List.length_cons, List.length_nil]
      omega
    rw [hdroplen]
    rw [List.drop_append_eq_append_drop, hlen2]
    have h1m : 1 - maxCtx = 0 := by omega
    rw [h1m, List.drop_zero]
    unfold lastN
    rw [List.drop_drop]
    rw [List.drop_append_eq_append_drop]
    have h2 : (msgs ++ [m]).length - maxCtx = msgs.length - maxCtx + 1 := by
      simp only [List.length_append, List.length_cons, List.length_nil]
      omega
    have h3 : msgs.length - maxCtx + 1 - msgs.length = 0 := by omega
    rw [h2, h3, List.drop_zero]

lemma foldl_history_lastN (maxCtx : Nat) (hpos : 0 < maxCtx)
    (ops : List AddArgs) :
    ∀ (s : Session) (msgs : List Message),
      s.conversation_history = lastN maxCtx msgs →
      (ops.foldl (add_message maxCtx) s).conversation_history =
        lastN maxCtx (msgs ++ ops.map mkMessage) := by
  induction ops with
  | nil => intro s msgs h; simpa using h
  | cons a t ih =>
    intro s msgs h
    have hstep : (add_message maxCtx s a).conversation_history =
        lastN maxCtx (msgs ++ [mkMessage a]) := by
      rw [add_message_history, h]
      exact trunc_lastN_step maxCtx hpos msgs (mkMessage a)
    have := ih (add_message maxCtx s a) (msgs ++ [mkMessage a]) hstep
    simpa [List.append_assoc] using this

/-- C3: over any sequence of `add_message` calls (arbitrary roles,
contents, book lists) on a freshly created session, the stored history
is exactly the suffix of the most recent `max_context_messages` appended
messages — so its length never exceeds `max_context_messages` and the
oldest entries are the ones dropped.  (Requires a positive
`max_context_messages`; the production configuration uses 50.) -/
theorem C3_history_bounded (maxCtx : Nat) (hpos : 0 < maxCtx) (now : Nat)
    (ops : List AddArgs) :
    (ops.foldl (add_message maxCtx) (emptySession now)).conversation_history =
      lastN maxCtx (ops.map mkMessage) ∧
    (ops.foldl (add_message maxCtx) (emptySession now)).conversation_history.length
      ≤ maxCtx := by
  have h := foldl_history_lastN maxCtx hpos ops (emptySession now) []
    (by simp [emptySession, lastN])
  simp only [List.nil_append] at h
  exact ⟨h, h ▸ lastN_length_le maxCtx _⟩

/-- C3 witness: two additions under `max_context_messages = 1` keep only
the most recent message. -/
theorem C3_witness :
    ([{ role := "user", content := "a", books := none, intent := none },
      { role := "user", content := "b", books := none, intent := none }].foldl
        (add_message 1) (emptySession 0)).conversation_history =
      lastN 1 ([{ role := "user", content := "a", books := none, intent := none },
        { role := "user", content := "b", books := none, intent := none }].map
          mkMessage) :=
  (C3_history_bounded 1 (by decide) 0 _).1

/-! ## C8: frame conditions of `add_message` on recommendations -/

lemma foldl_insert_union (l : List Book) (acc : Finset Int) :
    l.foldl
      (fun acc b =>
        match b.bookId with
        | some i => insert i acc
        | none => acc)
      acc = acc ∪ (l.filterMap (fun b => b.bookId)).toFinset := by
  induction l generalizing acc with
  | nil => simp
  | cons b t ih =>
    cases hb : b.bookId with
    | none => simp [List.foldl_cons, hb, List.filterMap_cons, ih]
    | some i =>
      simp only [List.foldl_cons, hb, List.filterMap_cons, List.toFinset_cons,
        ih (insert i acc)]
      rw [Finset.insert_union, Finset.union_insert]

lemma add_message_discussed_mono (maxCtx : Nat) (s : Session) (a : AddArgs) :
    s.discussed_books ⊆ (add_message maxCtx s a).discussed_books := by
  by_cases hb : booksTruthy a.books
  · simp only [add_message, hb, if_true, foldl_insert_union]
    exact Finset.subset_union_left
  · simp [add_message, hb]

/-- C8: `add_message` leaves `last_recommendations` and
`discussed_books` unchanged when `books` is absent or empty; a non-empty
`books` overwrites `last_recommendations` and unions the present
`book_id`s into `discussed_books`; hence `discussed_books` is
monotonically non-decreasing (under set inclusion) across any sequence
of `add_message` calls. -/
theorem C8_books_frame (maxCtx : Nat) :
    (∀ (s : Session) (a : AddArgs), booksTruthy a.books = false →
      (add_message maxCtx s a).last_recommendations = s.last_recommendations ∧
      (add_message maxCtx s a).discussed_books = s.discussed_books) ∧
    (∀ (s : Session) (a : AddArgs) (l : List Book),
      a.books = some l → l ≠ [] →
      (add_message maxCtx s a).last_recommendations = some l ∧
      (add_message maxCtx s a).discussed_books =
        s.discussed_books ∪ (l.filterMap (fun b => b.bookId)).toFinset) ∧
    (∀ (s : Session) (ops : List AddArgs),
      s.discussed_books ⊆ (ops.foldl (add_message maxCtx) s).discussed_books) := by
  refine ⟨?_, ?_, ?_⟩
  · intro s a h
    constructor <;> simp [add_message, h]
  · intro s a l hl hne
    have hb2 : booksTruthy (some l) = true := by
      simp [booksTruthy, List.isEmpty_iff, hne]
    constructor
    · simp [add_message, hl, hb2]
    · simp [add_message, hl, hb2, booksOf, foldl_insert_union]
  · intro s ops
    induction ops generalizing s with
    | nil => simp
    | cons a t ih =>
      exact (add_message_discussed_mono maxCtx s a).trans (ih _)

/-- C8 witness: a concrete non-empty `books` call unions the shown id
into `discussed_books`. -/
theorem C8_witness :
    (add_message 50 (emptySession 0)
      { role := "assistant", content := "here", intent := none
      , books := some [{ bookId := some 7, title := "Dune" }] }).discussed_books
      = (emptySession 0).discussed_books ∪
        (([{ bookId := some 7, title := "Dune" }] : List Book).filterMap
          (fun b => b.bookId)).toFinset :=
  ((C8_books_frame 50).2.1 (emptySession 0) _ _ rfl (by decide)).2

/-! ## C4: the prioritized intent cascade -/

/-- C4: `_analyze_intent` is the prioritized cascade, first match wins:
career keywords beat everything; genre + recommendation-request yields
`general`; then author keywords / known authors; then a bare
recommendation request; `closing` only without a recommendation-request
keyword; default `social`. -/
theorem C4_intent_cascade (message : String) :
    (hasKw (pyTrim (pyLower message)) career_keywords = true →
      analyze_intent message = "career_growth") ∧
    (hasKw (pyTrim (pyLower message)) career_keywords = false →
      hasKw (pyTrim (pyLower message)) genre_keywords = true →
      hasKw (pyTrim (pyLower message)) book_request_words = true →
      analyze_intent message = "general") ∧
    (hasKw (pyTrim (pyLower message)) career_keywords = false →
      (hasKw (pyTrim (pyLower message)) genre_keywords &&
        hasKw (pyTrim (pyLower message)) book_request_words) = false →
      (hasKw (pyTrim (pyLower message)) author_keywords ||
        hasKw (pyTrim (pyLower message)) known_authors) = true →
      analyze_intent message = "author") ∧
    (hasKw (pyTrim (pyLower message)) career_keywords = false →
      hasKw (pyTrim (pyLower message)) genre_keywords = false →
      (hasKw (pyTrim (pyLower message)) author_keywords ||
        hasKw (pyTrim (pyLower message)) known_authors) = false →
      hasKw (pyTrim (pyLower message)) book_request_words = true →
      analyze_intent message = "general") ∧
    (hasKw (pyTrim (pyLower message)) career_keywords = false →
      (hasKw (pyTrim (pyLower message)) author_keywords ||
        hasKw (pyTrim (pyLower message)) known_authors) = false →
      hasKw (pyTrim (pyLower message)) book_request_words = false →
      hasKw (pyTrim (pyLower message)) closing_keywords = true →
      analyze_intent message = "closing") ∧
    (hasKw (pyTrim (pyLower message)) book_request_words = true →
      analyze_intent message ≠ "closing") ∧
    (hasKw (pyTrim (pyLower message)) career_keywords = false →
      (hasKw (pyTrim (pyLower message)) author_keywords ||
        hasKw (pyTrim (pyLower message)) known_authors) = false →
      hasKw (pyTrim (pyLower message)) book_request_words = false →
      hasKw (pyTrim (pyLower message)) closing_keywords = false →
      analyze_intent message = "social") := by
  refine ⟨?_, ?_, ?_, ?_, ?_, ?_, ?_⟩
  · intro h1
    simp [analyze_intent, h1]
  · intro h1 h2 h3
    simp [analyze_intent, h1, h2, h3]
  · intro h1 h2 h3
    simp [analyze_intent, h1, h2, h3]
  · intro h1 h2 h3 h4
    simp [analyze_intent, h1, h2, h3, h4]
  · intro h1 h2 h3 h4
    simp [analyze_intent, h1, h2, h3, h4]
  · intro hreq
    by_cases h1 : hasKw (pyTrim (pyLower message)) career_keywords = true
    · have hv : analyze_intent message = "career_growth" := by
        simp [analyze_intent, h1]
      rw [hv]; decide
    · rw [Bool.not_eq_true] at h1
      by_cases hg : hasKw (pyTrim (pyLower message)) genre_keywords = true
      · have hv : analyze_intent message = "general" := by
          simp [analyze_intent, h1, hg, hreq]
        rw [hv]; decide
      · rw [Bool.not_eq_true] at hg
        by_cases h3 : (hasKw (pyTrim (pyLower message)) author_keywords ||
            hasKw (pyTrim (pyLower message)) known_authors) = true
        · have hv : analyze_intent message = "author" := by
            simp [analyze_intent, h1, hg, h3]
          rw [hv]; decide
        · rw [Bool.not_eq_true, Bool.or_eq_false_iff] at h3
          have hv : analyze_intent message = "general" := by
            simp [analyze_intent, h1, hg, h3.1, h3.2, hreq]
          rw [hv]; decide
  · intro h1 h2 h3 h4
    simp [analyze_intent, h1, h2, h3, h4]

/-- C4 witness: a career keyword overrides a recommendation request. -/
theorem C4_witness :
    analyze_intent "recommend books for a promoted manager" = "career_growth" :=
  (C4_intent_cascade "recommend books for a promoted manager").1 (by decide)

/-! ## C9: the continuation formula of `_analyze_context` -/

lemma detect_topic_mem (t lang : String) :
    detect_topic t lang = "general" ∨
      detect_topic t lang ∈ topic_keywords.map Prod.fst := by
  have he : detect_topic t lang =
      (topic_keywords.filterMap
        (fun p => if hasKw (pyLower t) p.2 then some p.1 else none)).headD
        "general" := rfl
  rw [he]
  cases hd : topic_keywords.filterMap
      (fun p => if hasKw (pyLower t) p.2 then some p.1 else none) with
  | nil => exact Or.inl rfl
  | cons x xs =>
    right
    have hx : x ∈ topic_keywords.filterMap
        (fun p => if hasKw (pyLower t) p.2 then some p.1 else none) := by
      rw [hd]; exact List.mem_cons_self _ _
    obtain ⟨p, hp, hpe⟩ := List.mem_filterMap.1 hx
    have hxp : x = p.1 := by
      by_cases hc : hasKw (pyLower t) p.2 = true
      · rw [if_pos hc] at hpe
        exact (Option.some_inj.1 hpe).symm
      · rw [if_neg hc] at hpe
        cases hpe
    simp only [List.headD_cons]
    rw [hxp]
    exact List.mem_map_of_mem Prod.fst hp

lemma detect_topic_ne_empty (t lang : String) : detect_topic t lang ≠ "" := by
  rcases detect_topic_mem t lang with h | h
  · rw [h]; decide
  · intro he
    rw [he] at h
    simp [topic_keywords] at h

/-- C9: `_analyze_context` returns an analysis in which
`is_continuation` is exactly `¬topic_shift ∧ ¬asking_about_previous ∧
similarity_score > 0.3`, and `similarity_score` is the string-similarity
ratio between the (lowered) current message and the most recent user
message of the history, `0` when there is none.  The difflib ratio is
abstract, constrained only by `ratio s "" = 0`. -/
theorem C9_continuation_formula (ratio : String → String → ℚ)
    (hr : ∀ s, ratio s "" = 0) (message : String) (history : List Message)
    (recs : Option (List Book)) (language : String) :
    (analyze_context ratio message history recs language).is_continuation =
      (!(analyze_context ratio message history recs language).topic_shift &&
       !(analyze_context ratio message history recs language).asking_about_previous &&
       decide ((3 : ℚ)/10 <
         (analyze_context ratio message history recs language).similarity_score)) ∧
    (analyze_context ratio message history recs language).similarity_score =
      (match lastUserMessage history with
       | none => 0
       | some l => ratio (pyLower message) (pyLower l)) := by
  have h03 : ¬ ((3 : ℚ)/10 < 0) := by norm_num
  by_cases hhist : history.isEmpty = true
  · have hnil : history = [] := List.isEmpty_iff.1 hhist
    subst hnil
    refine ⟨?_, rfl⟩
    simp [analyze_context, decide_eq_false h03]
  · rw [Bool.not_eq_true] at hhist
    simp only [analyze_context, hhist, Bool.false_eq_true, if_false]
    cases hl : lastUserMessage history with
    | none => exact ⟨rfl, rfl⟩
    | some lum =>
      by_cases hle : lum = ""
      · subst hle
        exact ⟨rfl, (hr (pyLower message)).symm⟩
      · have hcb := detect_topic_ne_empty message language
        have hpb := detect_topic_ne_empty lum language
        constructor <;> simp [hle, hcb, hpb]

/-- C9 witness: the formula evaluated on an empty history with the
constant-zero ratio. -/
theorem C9_witness :
    (analyze_context (fun _ _ => (0 : ℚ)) "oi" [] none "pt").similarity_score
      = 0 := by
  have h := (C9_continuation_formula (fun _ _ => 0) (fun _ => rfl)
    "oi" [] none "pt").2
  simpa [lastUserMessage] using h

/-! ## C7: fuzzy title scoring and catalog resolution -/

lemma charToLower_idem (c : Char) : (Char.toLower c).toLower = Char.toLower c := by
  by_cases h : c.toNat ≥ 65 ∧ c.toNat ≤ 90
  · have h1 : Char.toLower c = Char.ofNat (c.toNat + 32) := by
      unfold Char.toLower
      rw [if_pos h]
    have hv : (c.toNat + 32).isValidChar := Or.inl (by omega)
    have ht : (Char.ofNat (c.toNat + 32)).toNat = c.toNat + 32 := by
      rw [Char.ofNat, dif_pos hv]
      rfl
    rw [h1]
    unfold Char.toLower
    rw [if_neg (by rw [ht]; omega)]
  · have h1 : Char.toLower c = c := by
      unfold Char.toLower
      rw [if_neg h]
    rw [h1, h1]

lemma pyLower_idem (s : String) : pyLower (pyLower s) = pyLower s := by
  show String.mk ((s.data.map Char.toLower).map Char.toLower)
      = String.mk (s.data.map Char.toLower)
  rw [List.map_map]
  congr 1
  induction s.data with
  | nil => rfl
  | cons c t ih =>
    simp only [List.map_cons, Function.comp_apply, ih, List.cons.injEq]
    exact ⟨charToLower_idem c, trivial⟩

lemma calc_sim_le_one (ratio : String → String → ℚ)
    (hr : ∀ a b, 0 ≤ ratio a b ∧ ratio a b ≤ 1) (q t : String)
    (w : List String) : calculate_title_similarity ratio q t w ≤ 1 := by
  simp only [calculate_title_similarity]
  split_ifs
  · norm_num
  · norm_num
  · exact le_trans (min_le_left _ _) (by norm_num)
  · have h2 := (hr q t).2
    have h3 : ratio q t * (7/10) ≤ 1 * (7/10) :=
      mul_le_mul_of_nonneg_right h2 (by norm_num)
    norm_num at h3
    linarith
  · norm_num

lemma calc_sim_gt_nine_tenths (ratio : String → String → ℚ)
    (hr : ∀ a b, 0 ≤ ratio a b ∧ ratio a b ≤ 1) (q t : String)
    (w : List String)
    (hgt : (9 : ℚ)/10 < calculate_title_similarity ratio q t w) :
    calculate_title_similarity ratio q t w = 1 := by
  revert hgt
  simp only [calculate_title_similarity]
  split_ifs
  · intro _; rfl
  · intro hgt; norm_num at hgt
  · intro hgt
    exact absurd (lt_of_lt_of_le hgt (min_le_left _ _)) (by norm_num)
  · intro hgt
    have h2 := (hr q t).2
    have h3 : ratio q t * (7/10) ≤ 1 * (7/10) :=
      mul_le_mul_of_nonneg_right h2 (by norm_num)
    norm_num at h3
    linarith
  · intro hgt; norm_num at hgt

lemma findFuzzyAux_fst_ge (ratio : String → String → ℚ) (q : String)
    (w : List String) :
    ∀ (l : List CatBook) (bs : ℚ) (bm : Option CatBook),
      bs ≤ (findFuzzyAux ratio q w l bs bm).1 := by
  intro l
  induction l with
  | nil => intro bs bm; simp [findFuzzyAux]
  | cons b rest ih =>
    intro bs bm
    unfold findFuzzyAux
    split_ifs with hbt hbrk hupd hupd
    · exact ih bs bm
    · simp only
      exact le_of_lt hupd
    · simp only
      exact le_refl bs
    · exact le_trans (le_of_lt hupd) (ih _ _)
    · exact ih bs bm

lemma findFuzzyAux_spec (ratio : String → String → ℚ) (q : String)
    (w : List String) :
    ∀ (l : List CatBook) (bs : ℚ) (bm : Option CatBook),
      findFuzzyAux ratio q w l bs bm = (bs, bm) ∨
      (∃ b ∈ l, pyLower b.title ≠ "" ∧
        findFuzzyAux ratio q w l bs bm =
          (calculate_title_similarity ratio q (pyLower b.title) w, some b) ∧
        bs < calculate_title_similarity ratio q (pyLower b.title) w) := by
  intro l
  induction l with
  | nil => intro bs bm; exact Or.inl rfl
  | cons b rest ih =>
    intro bs bm
    unfold findFuzzyAux
    split_ifs with hbt hbrk hupd hupd
    · rcases ih bs bm with h | ⟨b0, hmem, hbt0, heq, hlt⟩
      · exact Or.inl h
      · exact Or.inr ⟨b0, List.mem_cons_of_mem b hmem, hbt0, heq, hlt⟩
    · exact Or.inr ⟨b, List.mem_cons_self b rest, hbt, rfl, hupd⟩
    · exact Or.inl rfl
    · rcases ih (calculate_title_similarity ratio q (pyLower b.title) w)
          (some b) with h | ⟨b0, hmem, hbt0, heq, hlt⟩
      · exact Or.inr ⟨b, List.mem_cons_self b rest, hbt, h, hupd⟩
      · exact Or.inr ⟨b0, List.mem_cons_of_mem b hmem, hbt0, heq,
          lt_trans hupd hlt⟩
    · rcases ih bs bm with h | ⟨b0, hmem, hbt0, heq, hlt⟩
      · exact Or.inl h
      · exact Or.inr ⟨b0, List.mem_cons_of_mem b hmem, hbt0, heq, hlt⟩

lemma findFuzzyAux_dominates (ratio : String → String → ℚ)
    (hr : ∀ a b, 0 ≤ ratio a b ∧ ratio a b ≤ 1) (q : String)
    (w : List String) :
    ∀ (l : List CatBook) (bs : ℚ) (bm : Option CatBook),
      ∀ b' ∈ l, pyLower b'.title ≠ "" →
        calculate_title_similarity ratio q (pyLower b'.title) w ≤
          (findFuzzyAux ratio q w l bs bm).1 := by
  intro l
  induction l with
  | nil => intro bs bm b' hb'; cases hb'
  | cons b rest ih =>
    intro bs bm b' hb' hbt'
    unfold findFuzzyAux
    split_ifs with hbt hbrk hupd hupd
    · rcases List.mem_cons.1 hb' with rfl | hmem
      · exact absurd hbt hbt'
      · exact ih bs bm b' hmem hbt'
    · have hone := calc_sim_gt_nine_tenths ratio hr q (pyLower b.title) w hbrk
      have hle := calc_sim_le_one ratio hr q (pyLower b'.title) w
      simp only
      rw [hone] at hupd ⊢
      exact hle
    · have hone := calc_sim_gt_nine_tenths ratio hr q (pyLower b.title) w hbrk
      have hle := calc_sim_le_one ratio hr q (pyLower b'.title) w
      simp only
      rw [hone] at hupd
      push_neg at hupd
      exact le_trans hle hupd
    · rcases List.mem_cons.1 hb' with rfl | hmem
      · exact findFuzzyAux_fst_ge ratio q w rest _ _
      · exact ih _ _ b' hmem hbt'
    · rcases List.mem_cons.1 hb' with rfl | hmem
      · push_neg at hupd
        exact le_trans hupd (findFuzzyAux_fst_ge ratio q w rest bs bm)
      · exact ih bs bm b' hmem hbt'

/-- C7: the fuzzy title-similarity cascade — `1` for strings equal
ignoring case, `0.9` for proper substring containment either way, at
most `0.8` in the shared-token case, the (difflib) ratio times `0.7` in
the short-string fallback — and catalog resolution returns the
best-scoring row only when its score exceeds `0.3`, reporting no match
when every row scores at most `0.3`.  The difflib ratio is abstract,
constrained to `[0, 1]`. -/
theorem C7_fuzzy_title_resolution (ratio : String → String → ℚ)
    (hr : ∀ a b, 0 ≤ ratio a b ∧ ratio a b ≤ 1) :
    (∀ (q : String) (b : CatBook), pyLower q = pyLower b.title →
      rowScore ratio q b = 1) ∧
    (∀ (q : String) (b : CatBook), pyLower q ≠ pyLower b.title →
      (strContains (pyLower b.title) (pyLower q) ||
        strContains (pyLower q) (pyLower b.title)) = true →
      rowScore ratio q b = 9/10) ∧
    (∀ (q : String) (b : CatBook),
      (((pySplitWs (pyLower b.title)).dedup.filter
        (fun x => (pySplitWs (pyLower q)).contains x)).length ≠ 0) →
      rowScore ratio q b ≤ 8/10 ∨ rowScore ratio q b = 1 ∨
        rowScore ratio q b = 9/10) ∧
    (∀ (q : String) (b : CatBook), pyLower q ≠ pyLower b.title →
      (strContains (pyLower b.title) (pyLower q) ||
        strContains (pyLower q) (pyLower b.title)) = false →
      (((pySplitWs (pyLower b.title)).dedup.filter
        (fun x => (pySplitWs (pyLower q)).contains x)).length = 0) →
      ((pyLower q).length < 20 ∧ (pyLower b.title).length < 20) →
      rowScore ratio q b = ratio (pyLower q) (pyLower b.title) * (7/10)) ∧
    (∀ (catalog : List CatBook) (q : String) (b : CatBook),
      find_book_by_title_fuzzy ratio catalog q = some b →
      b ∈ catalog ∧ (3 : ℚ)/10 < rowScore ratio q b ∧
        ∀ b' ∈ catalog, pyLower b'.title ≠ "" →
          rowScore ratio q b' ≤ rowScore ratio q b) ∧
    (∀ (catalog : List CatBook) (q : String),
      (∀ b' ∈ catalog, rowScore ratio q b' ≤ (3 : ℚ)/10) →
      find_book_by_title_fuzzy ratio catalog q = none) := by
  have hrow : ∀ (q : String) (b : CatBook), rowScore ratio q b =
      calculate_title_similarity ratio (pyLower q) (pyLower b.title)
        (pySplitWs (pyLower q)) := fun _ _ => rfl
  refine ⟨?_, ?_, ?_, ?_, ?_, ?_⟩
  · intro q b h
    rw [hrow]
    unfold calculate_title_similarity
    rw [if_pos (by rw [h]; exact (pyLower_idem b.title).symm)]
  · intro q b hne hcont
    rw [hrow]
    unfold calculate_title_similarity
    rw [if_neg (by rw [pyLower_idem]; exact hne), if_pos hcont]
  · intro q b hcommon
    rw [hrow]
    simp only [calculate_title_similarity]
    split_ifs with h1 h2
    · right; left; rfl
    · right; right; rfl
    · left; exact min_le_left _ _
  · intro q b hne hcont hcommon hlen
    rw [hrow]
    simp only [calculate_title_similarity]
    rw [if_neg (by rw [pyLower_idem]; exact hne), if_neg (by rw [hcont]; decide),
      if_neg (by rw [hcommon]; decide),
      if_pos (by
        rw [Bool.and_eq_true, decide_eq_true_eq, decide_eq_true_eq]
        exact hlen)]
  · intro catalog q b hfind
    simp only [find_book_by_title_fuzzy] at hfind
    rcases findFuzzyAux_spec ratio (pyLower q) (pySplitWs (pyLower q))
        catalog 0 none with heq | ⟨b0, hmem, hbt0, heq, _⟩
    · rw [heq] at hfind
      simp at hfind
    · rw [heq] at hfind
      simp only at hfind
      by_cases h3 : (3 : ℚ)/10 <
          calculate_title_similarity ratio (pyLower q) (pyLower b0.title)
            (pySplitWs (pyLower q))
      · rw [if_pos h3] at hfind
        have hbb : b0 = b := Option.some_inj.1 hfind
        subst hbb
        refine ⟨hmem, by rw [hrow]; exact h3, ?_⟩
        intro b' hb' hbt'
        have hd := findFuzzyAux_dominates ratio hr (pyLower q)
          (pySplitWs (pyLower q)) catalog 0 none b' hb' hbt'
        rw [heq] at hd
        rw [hrow, hrow]
        exact hd
      · rw [if_neg h3] at hfind
        cases hfind
  · intro catalog q hall
    have hle : (findFuzzyAux ratio (pyLower q) (pySplitWs (pyLower q))
        catalog 0 none).1 ≤ 3/10 := by
      rcases findFuzzyAux_spec ratio (pyLower q) (pySplitWs (pyLower q))
          catalog 0 none with heq | ⟨b0, hmem, hbt0, heq, _⟩
      · rw [heq]; norm_num
      · rw [heq]
        have := hall b0 hmem
        rw [hrow] at this
        exact this
    simp only [find_book_by_title_fuzzy]
    cases h2 : (findFuzzyAux ratio (pyLower q) (pySplitWs (pyLower q))
        catalog 0 none).2 with
    | none => rfl
    | some b0 => exact if_neg (not_lt.2 hle)

/-- C7 witness: an exact (case-insensitive) catalog title scores `1`
under the constant-zero ratio. -/
theorem C7_witness :
    rowScore (fun _ _ => (0 : ℚ)) "DUNE" { title := "Dune" } = 1 :=
  (C7_fuzzy_title_resolution (fun _ _ => 0)
      (fun _ _ => ⟨le_refl 0, by norm_num⟩)).1 "DUNE" { title := "Dune" }
    (by decide)

end BookAgent
